import Mathlib

/-!
Shallow embedding of the AtomOne x/gov governor core: the TallyResult value
type, the governor registry with its power index, the bonded-token projection
through the staking oracle, and the minimum-self-delegation eligibility gate.
Go machine values are embedded as follows: math.Int becomes Int, the legacy
decimal type (a big integer scaled by 10^18) becomes its scaled Int numerator,
strings become String, and computations that can hit a Go runtime panic return
Option values, with none marking the panic.
-/

/-! ## Legacy decimal arithmetic (cosmossdk.io/math LegacyDec)

A decimal is represented by its numerator scaled by 10^18. Multiplication by
an integer is exact; division first scales the dividend by 10^36, performs
truncated big-integer division, then removes 18 digits with round-half-to-even
(the chopPrecisionAndRound routine); truncation to an integer drops the 18
fractional digits toward zero. Division by a zero decimal is a big-integer
division by zero, which panics at runtime, hence the Option result. -/

def PRECISION : Int := 1000000000000000000

def fivePrecision : Int := 500000000000000000

/-- Removal of the 18 extra fractional digits from a nonnegative scaled value,
rounding half to even, mirroring the Go chopPrecisionAndRound on a
nonnegative input. -/
def chopRoundNonneg (d : Int) : Int :=
  let q := d.tdiv PRECISION
  let r := d.tmod PRECISION
  if r = 0 then q
  else if r < fivePrecision then q
  else if fivePrecision < r then q + 1
  else if q.tmod 2 = 0 then q else q + 1

/-- Sign-symmetric wrapper, as in the Go routine which negates, chops, and
negates back. -/
def chopPrecisionAndRound (d : Int) : Int :=
  if d < 0 then -(chopRoundNonneg (-d)) else chopRoundNonneg d

/-- LegacyDec.MulInt: exact on the scaled representation. -/
def decMulInt (d n : Int) : Int := d * n

/-- LegacyDec.Quo: none when the divisor is the zero decimal (big-integer
division by zero panics in Go). -/
def decQuo (a b : Int) : Option Int :=
  if b = 0 then none
  else some (chopPrecisionAndRound ((a * PRECISION * PRECISION).tdiv b))

/-- LegacyDec.TruncateInt: drop the fractional digits toward zero. -/
def decTruncateInt (d : Int) : Int := d.tdiv PRECISION

/-! ## TallyResult (x/gov types v1) -/

/-- TallyResult from the gov v1 types: three string-encoded counts. -/
structure TallyResult where
  yesCount : String
  abstainCount : String
  noCount : String
  deriving DecidableEq

/-- NewTallyResult renders the three integer counts as strings. -/
def NewTallyResult (yes abstain no : Int) : TallyResult :=
  { yesCount := toString yes
  , abstainCount := toString abstain
  , noCount := toString no }

/-- EmptyTallyResult is the tally of three zero counts. -/
def EmptyTallyResult : TallyResult := NewTallyResult 0 0 0

/-- Equals compares the three count strings. -/
def TallyResult.Equals (tr comp : TallyResult) : Bool :=
  tr.yesCount == comp.yesCount &&
  tr.abstainCount == comp.abstainCount &&
  tr.noCount == comp.noCount

/-- The list of count fields a TallyResult carries, in declaration order. -/
def TallyResult.counts (tr : TallyResult) : List String :=
  [tr.yesCount, tr.abstainCount, tr.noCount]

/-! ## Data model -/

/-- Governor lifecycle status. Modelled from the spec: the spec lists the
Active and Inactive states; the generated enum also has a zero value, which
is what the zero-value Governor carries and which is neither Active nor
Inactive. -/
inductive GovernorStatus
  | Unspecified
  | Active
  | Inactive
  deriving DecidableEq, BEq

/-- Modelled from the spec: the gov v1 Governor entity (its generated type is
not under src), reduced to the fields the core reads: unique address,
lifecycle status, and the derived voting power decimal (scaled by 10^18). -/
structure Governor where
  address : String
  status : GovernorStatus
  votingPower : Int
  deriving DecidableEq

/-- IsActive checks for the Active status; the zero-value status fails it. -/
def Governor.IsActive (g : Governor) : Bool := g.status == GovernorStatus.Active

/-- The zero value of the Governor type, returned by GetGovernor on a missing
record. -/
def zeroGovernor : Governor :=
  { address := "", status := GovernorStatus.Unspecified, votingPower := 0 }

/-- A staking delegation record as the staking oracle yields it: target
validator and the delegated shares decimal. -/
structure Delegation where
  validatorAddress : String
  shares : Int
  deriving DecidableEq

/-- A validator as read from the staking oracle: bonded tokens (integer) and
total delegator shares (decimal). -/
structure Validator where
  bondedTokens : Int
  delegatorShares : Int
  deriving DecidableEq

/-- Modelled from the spec: the governance delegation relation entry,
delegator account to governor address. -/
structure GovernanceDelegation where
  delegatorAddress : String
  governorAddress : String
  deriving DecidableEq

/-- The configuration parameters this core reads. -/
structure Params where
  maxGovernors : Nat
  minGovernorSelfDelegation : String
  deriving DecidableEq

/-- The persisted state visible to the core: the governor records keyed by
address, the power index as the list of its (power, address) keys in the
order the descending iterator visits them, the governance delegation relation
keyed by delegator, the staking delegations per account, the validator set,
and the module parameters. -/
structure StoreState where
  governors : List (String × Governor)
  powerIndex : List (Int × String)
  governanceDelegations : List (String × GovernanceDelegation)
  stakingDelegations : List (String × List Delegation)
  validators : List (String × Validator)
  params : Params
  deriving DecidableEq

/-- Lookup in an association list keyed by strings. -/
def assocGet {α : Type} (l : List (String × α)) (k : String) : Option α :=
  (l.find? (fun kv => kv.1 == k)).map Prod.snd

/-! ## Keeper operations (src/x/gov/keeper/governor.go) -/

/-- GetGovernor returns the governor with the provided address, or an
explicit absence. -/
def GetGovernor (st : StoreState) (addr : String) : Option Governor :=
  assocGet st.governors addr

/-- SetGovernor stores the governor under its own address. -/
def SetGovernor (st : StoreState) (g : Governor) : StoreState :=
  { st with governors := (g.address, g) :: st.governors.filter (fun kv => kv.1 != g.address) }

/-- SetGovernorByPowerIndex installs the index entry keyed by the governor
current voting power and address. -/
def SetGovernorByPowerIndex (st : StoreState) (g : Governor) : StoreState :=
  { st with powerIndex :=
      if (g.votingPower, g.address) ∈ st.powerIndex then st.powerIndex
      else (g.votingPower, g.address) :: st.powerIndex }

/-- DeleteGovernorByPowerIndex removes the index entry keyed by the governor
current voting power and address. -/
def DeleteGovernorByPowerIndex (st : StoreState) (g : Governor) : StoreState :=
  { st with powerIndex := st.powerIndex.filter (fun key => key != (g.votingPower, g.address)) }

/-- UpdateGovernorByPowerIndex reads the previously stored record (the found
flag is discarded, so a missing record reads as the zero governor), deletes
the index entry keyed by the old power, installs the entry keyed by the new
power, and then persists the updated record. -/
def UpdateGovernorByPowerIndex (st : StoreState) (g : Governor) : StoreState :=
  let oldGovernor := (GetGovernor st g.address).getD zeroGovernor
  SetGovernor (SetGovernorByPowerIndex (DeleteGovernorByPowerIndex st oldGovernor) g) g

/-- Modelled from the spec: the governance delegation accessor (outside src)
is the plain store lookup keyed by the delegator account, with absence as an
explicit signal. -/
def GetGovernanceDelegation (st : StoreState) (delAddr : String) : Option GovernanceDelegation :=
  assocGet st.governanceDelegations delAddr

/-- The staking oracle validator read as the keeper uses it: the found flag
is discarded, so an absent validator reads as the zero value with zero bonded
tokens and zero delegator shares. -/
def getValidatorOrZero (st : StoreState) (valAddr : String) : Validator :=
  (assocGet st.validators valAddr).getD { bondedTokens := 0, delegatorShares := 0 }

/-- The staking delegations of an account, in the order the oracle iterates
them. -/
def delegationsOf (st : StoreState) (accAddr : String) : List Delegation :=
  (assocGet st.stakingDelegations accAddr).getD []

/-- The token value of one delegation: shares times validator bonded tokens,
divided by the validator total delegator shares, truncated to an integer.
None marks the division-by-zero panic when the validator has zero delegator
shares. -/
def delegationTokens (st : StoreState) (d : Delegation) : Option Int :=
  let v := getValidatorOrZero st d.validatorAddress
  (decQuo (decMulInt d.shares v.bondedTokens) v.delegatorShares).map decTruncateInt

/-- The accumulation loop of getGovernorBondedTokens over the delegation
list; a panic in any term aborts the whole computation. -/
def sumBondedTokens (st : StoreState) : List Delegation → Int → Option Int
  | [], acc => some acc
  | d :: ds, acc =>
    match delegationTokens st d with
    | none => none
    | some bt => sumBondedTokens st ds (acc + bt)

/-- getGovernorBondedTokens sums the truncated token value of every staking
delegation of the governor account. -/
def getGovernorBondedTokens (st : StoreState) (govAddr : String) : Option Int :=
  sumBondedTokens st (delegationsOf st govAddr) 0

/-- The optional-integer parse of the configured minimum self-delegation.
Modelled from the spec: the library parse of a string-encoded integer
(decimal digits with an optional sign); none is the zero-value math.Int the
Go code keeps after discarding the parse error, whose nil interior makes the
later comparison panic. -/
def parseNatDigits : List Char → Nat → Option Nat
  | [], acc => some acc
  | c :: cs, acc =>
    if c.isDigit then parseNatDigits cs (acc * 10 + (c.toNat - 48)) else none

/-- Parse of an optional minus sign followed by at least one decimal digit. -/
def parseMathInt (s : String) : Option Int :=
  match s.toList with
  | [] => none
  | '-' :: rest =>
    if rest.isEmpty then none
    else (parseNatDigits rest 0).map (fun n => -(n : Int))
  | l => (parseNatDigits l 0).map (fun n => (n : Int))

/-- ValidateGovernorMinSelfDelegation: parse the configured minimum (the
parse error is discarded), compute the governor bonded tokens, fail closed on
a non-Active governor, panic (none) on an Active governor whose governance
self-delegation is absent or points to a different governor, panic on the
comparison when the configured minimum did not parse, and otherwise return
whether the bonded tokens reach the minimum. -/
def ValidateGovernorMinSelfDelegation (st : StoreState) (governor : Governor) : Option Bool :=
  match getGovernorBondedTokens st governor.address with
  | none => none
  | some bondedTokens =>
    if governor.IsActive = true then
      match GetGovernanceDelegation st governor.address with
      | none => none
      | some del =>
        if del.governorAddress = governor.address then
          match parseMathInt st.params.minGovernorSelfDelegation with
          | none => none
          | some m => some (decide (m ≤ bondedTokens))
        else none
    else some false

/-- Resolution of a power index entry value to its governor, with the found
flag discarded as in the iteration loop. -/
def resolveGovernor (st : StoreState) (addr : String) : Governor :=
  (GetGovernor st addr).getD zeroGovernor

/-- The loop of IterateMaxGovernorsByGovernancePower over the remaining index
entries, carrying the running count of admitted governors. The count is
compared with the cap before anything else; an entry is resolved with the
found flag discarded; only an Active governor reaches the eligibility check
(short-circuit); a panic there (none) aborts the whole iteration, reported by
the Boolean flag of the result; the callback may stop the scan; the count
advances only on yielded entries. -/
def iterGo (st : StoreState) (cb : Nat → Governor → Bool) (maxGovernors : Nat) :
    List (Int × String) → Nat → List (Nat × Governor) × Bool
  | [], _ => ([], false)
  | entry :: rest, tot =>
    if tot ≤ maxGovernors then
      if (resolveGovernor st entry.2).IsActive = true then
        match ValidateGovernorMinSelfDelegation st (resolveGovernor st entry.2) with
        | none => ([], true)
        | some true =>
          if cb tot (resolveGovernor st entry.2) then ([(tot, resolveGovernor st entry.2)], false)
          else
            ((tot, resolveGovernor st entry.2) :: (iterGo st cb maxGovernors rest (tot + 1)).1,
              (iterGo st cb maxGovernors rest (tot + 1)).2)
        | some false => iterGo st cb maxGovernors rest tot
      else iterGo st cb maxGovernors rest tot
    else ([], false)

/-- IterateMaxGovernorsByGovernancePower walks the power index in the order
the descending iterator presents its keys, returning the yielded
(index, governor) pairs and whether the scan aborted on a panic. -/
def IterateMaxGovernorsByGovernancePower (st : StoreState) (cb : Nat → Governor → Bool) :
    List (Nat × Governor) × Bool :=
  iterGo st cb st.params.maxGovernors st.powerIndex 0

/-- The admission decision the loop takes on one index entry: eligible means
resolved to an Active governor passing the eligibility check; none marks the
panic of the check. -/
def entryEligible (st : StoreState) (entry : Int × String) : Option Bool :=
  let governor := resolveGovernor st entry.2
  if governor.IsActive = true then ValidateGovernorMinSelfDelegation st governor
  else some false

/-- The index entries the loop would admit, in scan order. -/
def eligList (st : StoreState) (l : List (Int × String)) : List (Int × String) :=
  l.filter (fun e => entryEligible st e == some true)

/-! ## C1 -/

/-- C1 counterexample: a TallyResult does not consist of four counts; the
empty tally carries exactly three count fields, so the length of its count
list is not four. -/
theorem C1_counterexample : ¬ (TallyResult.counts EmptyTallyResult).length = 4 := by
  decide

/-- C1 (amended): a TallyResult consists of three string-encoded counts
(yes, abstain, no); two TallyResults are equal under Equals iff all three
counts match exactly; and the empty tally equals itself with every one of the
three counts equal to the string "0". -/
theorem C1_tally_result_three_counts :
    (∀ tr comp : TallyResult, TallyResult.Equals tr comp = true ↔
      (tr.yesCount = comp.yesCount ∧ tr.abstainCount = comp.abstainCount ∧
        tr.noCount = comp.noCount))
    ∧ TallyResult.Equals EmptyTallyResult EmptyTallyResult = true
    ∧ (TallyResult.counts EmptyTallyResult).length = 3
    ∧ TallyResult.counts EmptyTallyResult = ["0", "0", "0"] := by
  refine ⟨?_, by decide, by decide, by decide⟩
  intro tr comp
  simp [TallyResult.Equals, Bool.and_eq_true, beq_iff_eq, and_assoc]

/-! ## Iteration lemmas -/

/-- Once the running count exceeds the cap, the loop yields nothing and does
not abort. -/
theorem iterGo_stop_high (st : StoreState) (cb : Nat → Governor → Bool) (maxG : Nat)
    (l : List (Int × String)) (tot : Nat) (h : maxG < tot) :
    iterGo st cb maxG l tot = ([], false) := by
  cases l with
  | nil => rfl
  | cons e rest =>
    simp only [iterGo]
    rw [if_neg (by omega)]

/-- Every pair the loop yields carries an Active governor that passed the
eligibility check. -/
theorem iterGo_mem_eligible (st : StoreState) (cb : Nat → Governor → Bool) (maxG : Nat) :
    ∀ (l : List (Int × String)) (tot i : Nat) (g : Governor),
      (i, g) ∈ (iterGo st cb maxG l tot).1 →
      g.IsActive = true ∧ ValidateGovernorMinSelfDelegation st g = some true := by
  intro l
  induction l with
  | nil =>
    intro tot i g h
    simp [iterGo] at h
  | cons e rest ih =>
    intro tot i g h
    simp only [iterGo] at h
    split at h
    · split at h
      · rename_i hact
        split at h
        · simp at h
        · rename_i hval
          split at h
          · simp at h
            obtain ⟨hi, hg⟩ := h
            subst hg
            exact ⟨hact, hval⟩
          · simp at h
            rcases h with ⟨hi, hg⟩ | hmem
            · subst hg
              exact ⟨hact, hval⟩
            · exact ih (tot + 1) i g hmem
        · exact ih tot i g h
      · exact ih tot i g h
    · simp at h

/-- An index entry whose address has no governor record behaves as if absent:
the zero governor it resolves to is not Active, so the loop moves on without
consuming a slot or aborting. -/
theorem iterGo_skip_missing (st : StoreState) (cb : Nat → Governor → Bool) (maxG : Nat)
    (p : Int) (addr : String) (rest : List (Int × String)) (tot : Nat)
    (hmiss : GetGovernor st addr = none) :
    iterGo st cb maxG ((p, addr) :: rest) tot = iterGo st cb maxG rest tot := by
  have hres : resolveGovernor st addr = zeroGovernor := by
    simp [resolveGovernor, hmiss]
  by_cases htot : tot ≤ maxG
  · simp only [iterGo]
    rw [if_pos htot]
    simp [hres, Governor.IsActive, zeroGovernor]
    exact fun hcontra => absurd hcontra (by decide)
  · rw [iterGo_stop_high st cb maxG _ tot (by omega),
      iterGo_stop_high st cb maxG rest tot (by omega)]

/-! ## C2 -/

/-- C2: every governor yielded to the callback of
IterateMaxGovernorsByGovernancePower, on any state and any cap, is Active and
passes the minimum-self-delegation eligibility check; an Inactive governor or
one failing the predicate is never yielded. -/
theorem C2_iterate_yields_only_eligible (st : StoreState) (cb : Nat → Governor → Bool)
    (i : Nat) (g : Governor)
    (h : (i, g) ∈ (IterateMaxGovernorsByGovernancePower st cb).1) :
    g.IsActive = true ∧ ValidateGovernorMinSelfDelegation st g = some true :=
  iterGo_mem_eligible st cb st.params.maxGovernors st.powerIndex 0 i g h

/-- An active self-delegated governor with no staking delegations, used as a
concrete evaluation input. -/
def gW : Governor := { address := "g1", status := GovernorStatus.Active, votingPower := 10 }

/-- A one-governor state under a zero minimum self-delegation. -/
def stW : StoreState :=
  { governors := [("g1", gW)]
  , powerIndex := [(10, "g1")]
  , governanceDelegations := [("g1", { delegatorAddress := "g1", governorAddress := "g1" })]
  , stakingDelegations := []
  , validators := []
  , params := { maxGovernors := 5, minGovernorSelfDelegation := "0" } }

/-- C2 witness: on the concrete one-governor state the iteration yields the
governor at index 0, and the theorem certifies it Active and eligible. -/
theorem C2_witness : gW.IsActive = true ∧ ValidateGovernorMinSelfDelegation stW gW = some true :=
  C2_iterate_yields_only_eligible stW (fun _ _ => false) 0 gW (by decide)

/-! ## C3 -/

/-- C3: for an Active governor, an absent governance self-delegation record,
or one whose recorded governor address differs from the governor own address,
makes ValidateGovernorMinSelfDelegation abort (none, the panic) rather than
return false. -/
theorem C3_active_without_self_delegation_panics (st : StoreState) (g : Governor)
    (hact : g.IsActive = true)
    (hbad : GetGovernanceDelegation st g.address = none ∨
      ∃ d, GetGovernanceDelegation st g.address = some d ∧ d.governorAddress ≠ g.address) :
    ValidateGovernorMinSelfDelegation st g = none := by
  unfold ValidateGovernorMinSelfDelegation
  split
  · rfl
  · rw [if_pos hact]
    rcases hbad with hnone | ⟨d, hd, hne⟩
    · rw [hnone]
    · rw [hd]
      simp [hne]

/-- An active governor with no governance delegation record at all. -/
def gW3 : Governor := { address := "g3", status := GovernorStatus.Active, votingPower := 0 }

/-- A corrupted state: gW3 is Active yet has no self-delegation record. -/
def stW3 : StoreState :=
  { governors := [("g3", gW3)]
  , powerIndex := [(0, "g3")]
  , governanceDelegations := []
  , stakingDelegations := []
  , validators := []
  , params := { maxGovernors := 5, minGovernorSelfDelegation := "0" } }

/-- C3 witness: the eligibility check on the corrupted concrete state panics
instead of returning false. -/
theorem C3_witness :
    gW3.IsActive = true ∧ GetGovernanceDelegation stW3 gW3.address = none ∧
      ValidateGovernorMinSelfDelegation stW3 gW3 = none :=
  ⟨by decide, by decide, C3_active_without_self_delegation_panics stW3 gW3 (by decide)
    (Or.inl (by decide))⟩

/-! ## C10 -/

/-- C10: a power index entry whose stored address has no governor record is
silently skipped; the zero-value governor obtained after the discarded
not-found flag fails IsActive, and the entry neither consumes a slot toward
the cap nor causes an error or abort. -/
theorem C10_missing_record_skipped (st : StoreState) (cb : Nat → Governor → Bool)
    (p : Int) (addr : String) (rest : List (Int × String))
    (hidx : st.powerIndex = (p, addr) :: rest)
    (hmiss : GetGovernor st addr = none) :
    IterateMaxGovernorsByGovernancePower st cb =
      iterGo st cb st.params.maxGovernors rest 0
    ∧ zeroGovernor.IsActive = false := by
  constructor
  · simp only [IterateMaxGovernorsByGovernancePower, hidx]
    exact iterGo_skip_missing st cb st.params.maxGovernors p addr rest 0 hmiss
  · decide

/-- A state whose only power index entry points at a missing governor
record. -/
def stW10 : StoreState :=
  { governors := []
  , powerIndex := [(5, "ghost")]
  , governanceDelegations := []
  , stakingDelegations := []
  , validators := []
  , params := { maxGovernors := 3, minGovernorSelfDelegation := "0" } }

/-- C10 witness: on the concrete state the dangling entry is skipped, leaving
the iteration of the empty remainder. -/
theorem C10_witness :
    IterateMaxGovernorsByGovernancePower stW10 (fun _ _ => false) =
      iterGo stW10 (fun _ _ => false) stW10.params.maxGovernors [] 0
    ∧ zeroGovernor.IsActive = false :=
  C10_missing_record_skipped stW10 (fun _ _ => false) 5 ("ghost") [] rfl (by decide)

/-! ## C5 -/

/-- The per-term projection of one delegation with the truncation applied to
that term alone: shares times bonded tokens over total delegator shares,
truncated toward zero. -/
def delegationTokensTruncated (st : StoreState) (d : Delegation) : Int :=
  decTruncateInt
    ((decQuo (decMulInt d.shares (getValidatorOrZero st d.validatorAddress).bondedTokens)
      (getValidatorOrZero st d.validatorAddress).delegatorShares).getD 0)

/-- The accumulation loop computes the running total plus the sum of the
per-term truncated projections, when every divisor is nonzero. -/
theorem sumBondedTokens_eq (st : StoreState) :
    ∀ (l : List Delegation) (acc : Int),
      (∀ d ∈ l, (getValidatorOrZero st d.validatorAddress).delegatorShares ≠ 0) →
      sumBondedTokens st l acc = some (acc + (l.map (delegationTokensTruncated st)).sum) := by
  intro l
  induction l with
  | nil =>
    intro acc h
    simp [sumBondedTokens]
  | cons d ds ih =>
    intro acc h
    have hnz : (getValidatorOrZero st d.validatorAddress).delegatorShares ≠ 0 :=
      h d (List.mem_cons_self d ds)
    have hq : delegationTokens st d = some (delegationTokensTruncated st d) := by
      simp [delegationTokens, delegationTokensTruncated, decQuo, hnz]
    simp only [sumBondedTokens, hq]
    rw [ih (acc + delegationTokensTruncated st d) (fun x hx => h x (List.mem_cons_of_mem d hx))]
    simp only [List.map_cons, List.sum_cons, add_assoc]

/-- C5: the bonded-token total of a governor equals the sum over each of its
delegations of the projected token value, truncated toward zero per term and
only then summed as integers, whenever no divisor is the zero decimal. -/
theorem C5_bonded_tokens_truncate_per_term (st : StoreState) (govAddr : String)
    (hnz : ∀ d ∈ delegationsOf st govAddr,
      (getValidatorOrZero st d.validatorAddress).delegatorShares ≠ 0) :
    getGovernorBondedTokens st govAddr =
      some (((delegationsOf st govAddr).map (delegationTokensTruncated st)).sum) := by
  have h := sumBondedTokens_eq st (delegationsOf st govAddr) 0 hnz
  simpa [getGovernorBondedTokens] using h

/-- The spec scenario state: one delegation of 1000 shares to a validator
with 2000 bonded tokens and 1000 total delegator shares (decimals scaled by
10^18). -/
def stW5 : StoreState :=
  { governors := []
  , powerIndex := []
  , governanceDelegations := []
  , stakingDelegations := [("A", [{ validatorAddress := "V", shares := 1000000000000000000000 }])]
  , validators := [("V", { bondedTokens := 2000, delegatorShares := 1000000000000000000000 })]
  , params := { maxGovernors := 1, minGovernorSelfDelegation := "0" } }

/-- C5 witness: on the spec scenario the bonded-token total evaluates to
2000. -/
theorem C5_witness : getGovernorBondedTokens stW5 ("A") = some 2000 :=
  (C5_bonded_tokens_truncate_per_term stW5 ("A") (by decide)).trans (by decide)

/-! ## C8 -/

/-- A state where the governor account delegates 100 shares to a validator
carrying zero total delegator shares. -/
def stC8 : StoreState :=
  { governors := []
  , powerIndex := []
  , governanceDelegations := []
  , stakingDelegations := [("A", [{ validatorAddress := "V", shares := 100000000000000000000 }])]
  , validators := [("V", { bondedTokens := 1000, delegatorShares := 0 })]
  , params := { maxGovernors := 1, minGovernorSelfDelegation := "0" } }

/-- C8 (code bug): on a delegation to a validator with zero total delegator
shares the bonded-token computation hits the big-integer division by zero and
aborts (none, a runtime panic) instead of counting a defined zero
contribution as the spec requires. -/
theorem C8_zero_shares_division_panics : getGovernorBondedTokens stC8 ("A") = none := by
  decide

/-! ## C6 -/

/-- C6: the eligibility check returns false on every non-Active governor, and
on an Active governor with a valid self-delegation it returns true iff the
bonded tokens reach the parsed minimum, whenever the computation completes
(no division panic, parsable minimum). -/
theorem C6_validate_returns (st : StoreState) (g : Governor) :
    (g.IsActive = false → getGovernorBondedTokens st g.address ≠ none →
      ValidateGovernorMinSelfDelegation st g = some false)
    ∧ (∀ del m bt, g.IsActive = true →
        GetGovernanceDelegation st g.address = some del →
        del.governorAddress = g.address →
        parseMathInt st.params.minGovernorSelfDelegation = some m →
        getGovernorBondedTokens st g.address = some bt →
        (ValidateGovernorMinSelfDelegation st g = some true ↔ m ≤ bt)) := by
  constructor
  · intro hact hbt
    unfold ValidateGovernorMinSelfDelegation
    split
    · rename_i h
      exact absurd h hbt
    · rw [hact]
      simp
  · intro del m bt hact hdel haddr hmin hbt
    unfold ValidateGovernorMinSelfDelegation
    split
    · rename_i h
      rw [h] at hbt
      exact absurd hbt (by simp)
    · rename_i bt2 heq
      have hbteq : bt2 = bt := by
        rw [heq] at hbt
        exact Option.some.inj hbt
      subst hbteq
      rw [if_pos hact]
      simp [hdel, haddr, hmin, decide_eq_true_eq]

/-- An inactive governor with no staking delegations. -/
def gW6a : Governor := { address := "h1", status := GovernorStatus.Inactive, votingPower := 0 }

/-- A state holding only the inactive governor. -/
def stW6a : StoreState :=
  { governors := [("h1", gW6a)]
  , powerIndex := []
  , governanceDelegations := []
  , stakingDelegations := []
  , validators := []
  , params := { maxGovernors := 1, minGovernorSelfDelegation := "0" } }

/-- C6 witness: the inactive governor fails closed, and the active
self-delegated governor with zero bonded tokens passes the zero threshold. -/
theorem C6_witness :
    ValidateGovernorMinSelfDelegation stW6a gW6a = some false ∧
      ValidateGovernorMinSelfDelegation stW gW = some true :=
  ⟨(C6_validate_returns stW6a gW6a).1 (by decide) (by decide),
    ((C6_validate_returns stW gW).2 { delegatorAddress := "g1", governorAddress := "g1" } 0 0
      (by decide) (by decide) (by decide) (by decide) (by decide)).mpr (by decide)⟩

/-! ## C9 -/

/-- An inactive governor living under an unparsable configured minimum. -/
def gC9 : Governor := { address := "b1", status := GovernorStatus.Inactive, votingPower := 0 }

/-- A state whose configured minimum self-delegation does not parse. -/
def stC9 : StoreState :=
  { governors := [("b1", gC9)]
  , powerIndex := []
  , governanceDelegations := []
  , stakingDelegations := []
  , validators := []
  , params := { maxGovernors := 1, minGovernorSelfDelegation := "abc" } }

/-- C9 counterexample: with the unparsable minimum the eligibility check on a
non-Active governor returns a plain false and surfaces no configuration error
at all: the parse failure is silently discarded. -/
theorem C9_counterexample :
    parseMathInt stC9.params.minGovernorSelfDelegation = none ∧
      ValidateGovernorMinSelfDelegation stC9 gC9 = some false := by
  decide

/-- C9 (amended): the parse error of the configured minimum is discarded at
parse time; an eligibility check on a non-Active governor then returns false
with no error surfaced, while on an Active governor with a valid
self-delegation the final comparison aborts (none, the nil-value panic) at
eligibility-check time. -/
theorem C9_unparsable_min_behavior (st : StoreState) (g : Governor)
    (hparse : parseMathInt st.params.minGovernorSelfDelegation = none) :
    (g.IsActive = false → getGovernorBondedTokens st g.address ≠ none →
      ValidateGovernorMinSelfDelegation st g = some false)
    ∧ (∀ del, g.IsActive = true →
        GetGovernanceDelegation st g.address = some del →
        del.governorAddress = g.address →
        ValidateGovernorMinSelfDelegation st g = none) := by
  constructor
  · intro hact hbt
    unfold ValidateGovernorMinSelfDelegation
    split
    · rename_i h
      exact absurd h hbt
    · rw [hact]
      simp
  · intro del hact hdel haddr
    unfold ValidateGovernorMinSelfDelegation
    split
    · rfl
    · rw [if_pos hact]
      simp [hdel, haddr, hparse]

/-- An active self-delegated governor under the unparsable minimum. -/
def gC9b : Governor := { address := "b2", status := GovernorStatus.Active, votingPower := 0 }

/-- A state pairing the active governor with the unparsable minimum. -/
def stC9b : StoreState :=
  { governors := [("b2", gC9b)]
  , powerIndex := []
  , governanceDelegations := [("b2", { delegatorAddress := "b2", governorAddress := "b2" })]
  , stakingDelegations := []
  , validators := []
  , params := { maxGovernors := 1, minGovernorSelfDelegation := "abc" } }

/-! ## C4 -/

/-- One loop step on an entry whose admission decision is false: the loop
moves on, and the count does not advance. -/
theorem iterGo_cons_skip (st : StoreState) (cb : Nat → Governor → Bool) (maxG : Nat)
    (e : Int × String) (rest : List (Int × String)) (tot : Nat)
    (htot : tot ≤ maxG) (helig : entryEligible st e = some false) :
    iterGo st cb maxG (e :: rest) tot = iterGo st cb maxG rest tot := by
  by_cases hact : (resolveGovernor st e.2).IsActive = true
  · have hval : ValidateGovernorMinSelfDelegation st (resolveGovernor st e.2) = some false := by
      simpa [entryEligible, hact] using helig
    simp only [iterGo]
    rw [if_pos htot, if_pos hact]
    split
    · rename_i h
      rw [h] at hval
      simp at hval
    · rename_i h
      rw [h] at hval
      simp at hval
    · rfl
  · simp only [iterGo]
    rw [if_pos htot, if_neg hact]

/-- One loop step on an admitted entry under a callback that never stops: the
resolved governor is yielded at the current count and the loop continues with
the count advanced. -/
theorem iterGo_cons_yield (st : StoreState) (cb : Nat → Governor → Bool) (maxG : Nat)
    (e : Int × String) (rest : List (Int × String)) (tot : Nat)
    (htot : tot ≤ maxG) (hcb : cb tot (resolveGovernor st e.2) = false)
    (helig : entryEligible st e = some true) :
    iterGo st cb maxG (e :: rest) tot =
      ((tot, resolveGovernor st e.2) :: (iterGo st cb maxG rest (tot + 1)).1,
        (iterGo st cb maxG rest (tot + 1)).2) := by
  have hact : (resolveGovernor st e.2).IsActive = true := by
    by_contra hact
    simp [entryEligible, hact] at helig
  have hval : ValidateGovernorMinSelfDelegation st (resolveGovernor st e.2) = some true := by
    simpa [entryEligible, hact] using helig
  simp only [iterGo]
  rw [if_pos htot, if_pos hact]
  split
  · rename_i h
    rw [h] at hval
    simp at hval
  · rw [if_neg (by simp [hcb])]
  · rename_i h
    rw [h] at hval
    simp at hval

/-- The loop never yields more entries than the distance between the running
count and the cap plus one. -/
theorem iterGo_length_le (st : StoreState) (cb : Nat → Governor → Bool) (maxG : Nat) :
    ∀ (l : List (Int × String)) (tot : Nat),
      (iterGo st cb maxG l tot).1.length ≤ maxG + 1 - tot := by
  intro l
  induction l with
  | nil =>
    intro tot
    simp [iterGo]
  | cons e rest ih =>
    intro tot
    by_cases htot : tot ≤ maxG
    · simp only [iterGo]
      rw [if_pos htot]
      by_cases hact : (resolveGovernor st e.2).IsActive = true
      · rw [if_pos hact]
        split
        · simp
        · split
          · simp
            omega
          · have := ih (tot + 1)
            simp
            omega
        · exact ih tot
      · rw [if_neg hact]
        exact ih tot
    · rw [iterGo_stop_high st cb maxG _ tot (by omega)]
      simp

/-- Under a never-stopping callback, a panic-free scan with enough admissible
entries yields exactly the first cap-plus-one admissible entries, resolved in
scan order, and does not abort. -/
theorem iterGo_collect (st : StoreState) (maxG : Nat) (cb : Nat → Governor → Bool)
    (hcb : ∀ i g, cb i g = false) :
    ∀ (l : List (Int × String)) (tot : Nat),
      tot ≤ maxG + 1 →
      (∀ e ∈ l, entryEligible st e ≠ none) →
      maxG + 1 - tot ≤ (eligList st l).length →
      (iterGo st cb maxG l tot).1.map Prod.snd =
        ((eligList st l).take (maxG + 1 - tot)).map (fun e => resolveGovernor st e.2)
      ∧ (iterGo st cb maxG l tot).2 = false := by
  intro l
  induction l with
  | nil =>
    intro tot htot hnp2 hcount
    exact ⟨by simp [iterGo, eligList], by simp [iterGo]⟩
  | cons e rest ih =>
    intro tot htot hnp2 hcount
    by_cases htot2 : tot ≤ maxG
    case neg =>
      have h0 : maxG + 1 - tot = 0 := by omega
      rw [iterGo_stop_high st cb maxG (e :: rest) tot (by omega), h0]
      exact ⟨by simp, rfl⟩
    case pos =>
      cases helig : entryEligible st e with
      | none => exact absurd helig (hnp2 e (List.mem_cons_self e rest))
      | some b =>
        cases b with
        | false =>
          rw [iterGo_cons_skip st cb maxG e rest tot htot2 helig]
          have hel : eligList st (e :: rest) = eligList st rest := by
            simp [eligList, List.filter_cons, helig]
          rw [hel] at hcount ⊢
          exact ih tot htot (fun x hx => hnp2 x (List.mem_cons_of_mem e hx)) hcount
        | true =>
          rw [iterGo_cons_yield st cb maxG e rest tot htot2 (hcb tot _) helig]
          have hel : eligList st (e :: rest) = e :: eligList st rest := by
            simp [eligList, List.filter_cons, helig]
          have hcount2 : maxG + 1 - (tot + 1) ≤ (eligList st rest).length := by
            rw [hel] at hcount
            simp only [List.length_cons] at hcount
            omega
          have ihr := ih (tot + 1) (by omega)
            (fun x hx => hnp2 x (List.mem_cons_of_mem e hx)) hcount2
          constructor
          · dsimp only
            rw [List.map_cons, hel]
            have htake : maxG + 1 - tot = (maxG + 1 - (tot + 1)) + 1 := by omega
            rw [htake, List.take_succ_cons, List.map_cons, ihr.1]
          · dsimp only
            exact ihr.2

/-- C4: the running count is compared against the cap before the predicate
and before the increment, so on a sorted, consistent, panic-free index with
at least cap-plus-one admissible entries the callback is invoked exactly
cap-plus-one times under a never-stopping callback, the yielded powers are in
descending order, and no callback is ever invoked more than cap-plus-one
times. -/
theorem C4_cap_check_admits_cap_plus_one (st : StoreState)
    (hsorted : st.powerIndex.Pairwise (fun a b => b.1 ≤ a.1))
    (hcons : ∀ e ∈ st.powerIndex, (resolveGovernor st e.2).votingPower = e.1)
    (hnp : ∀ e ∈ st.powerIndex, entryEligible st e ≠ none)
    (hcount : st.params.maxGovernors + 1 ≤ (eligList st st.powerIndex).length) :
    (IterateMaxGovernorsByGovernancePower st (fun _ _ => false)).1.length =
      st.params.maxGovernors + 1
    ∧ ((IterateMaxGovernorsByGovernancePower st (fun _ _ => false)).1.map
        (fun y => y.2.votingPower)).Pairwise (fun p q => q ≤ p)
    ∧ (∀ cb, (IterateMaxGovernorsByGovernancePower st cb).1.length ≤
        st.params.maxGovernors + 1) := by
  have hcoll := iterGo_collect st st.params.maxGovernors (fun _ _ => false)
    (fun _ _ => rfl) st.powerIndex 0 (by omega) hnp (by simpa using hcount)
  simp only [Nat.sub_zero] at hcoll
  have hsub0 : List.Sublist (eligList st st.powerIndex) st.powerIndex := by
    simp only [eligList]
    exact List.filter_sublist _
  have hsub : List.Sublist ((eligList st st.powerIndex).take (st.params.maxGovernors + 1))
      st.powerIndex :=
    (List.take_sublist _ _).trans hsub0
  refine ⟨?_, ?_, ?_⟩
  · have hlenmap := congrArg List.length hcoll.1
    simp only [List.length_map, List.length_take] at hlenmap
    have hgoal : (iterGo st (fun _ _ => false) st.params.maxGovernors st.powerIndex 0).1.length =
        st.params.maxGovernors + 1 := by omega
    exact hgoal
  · have hcomp : (fun (y : Nat × Governor) => y.2.votingPower) =
        (Governor.votingPower ∘ Prod.snd) := rfl
    have h1 : ((iterGo st (fun _ _ => false) st.params.maxGovernors st.powerIndex 0).1.map
        (fun y => y.2.votingPower)) =
        ((eligList st st.powerIndex).take (st.params.maxGovernors + 1)).map
          (fun e => (resolveGovernor st e.2).votingPower) := by
      rw [hcomp, ← List.map_map, hcoll.1, List.map_map]
      rfl
    have h2 : ((eligList st st.powerIndex).take (st.params.maxGovernors + 1)).map
        (fun e => (resolveGovernor st e.2).votingPower) =
        ((eligList st st.powerIndex).take (st.params.maxGovernors + 1)).map Prod.fst := by
      apply List.map_congr_left
      intro e he
      exact hcons e (hsub.subset he)
    have h3 : (((eligList st st.powerIndex).take (st.params.maxGovernors + 1)).map
        Prod.fst).Pairwise (fun p q => q ≤ p) := by
      rw [List.pairwise_map]
      exact List.Pairwise.sublist hsub hsorted
    show ((iterGo st (fun _ _ => false) st.params.maxGovernors st.powerIndex 0).1.map
      (fun y => y.2.votingPower)).Pairwise (fun p q => q ≤ p)
    rw [h1, h2]
    exact h3
  · intro cb
    have hle := iterGo_length_le st cb st.params.maxGovernors st.powerIndex 0
    rw [Nat.sub_zero] at hle
    exact hle

/-- The top active eligible governor of the boundary scenario. -/
def gA4 : Governor := { address := "a4", status := GovernorStatus.Active, votingPower := 3 }

/-- The middle active eligible governor of the boundary scenario. -/
def gB4 : Governor := { address := "b4", status := GovernorStatus.Active, votingPower := 2 }

/-- The bottom active eligible governor of the boundary scenario. -/
def gD4 : Governor := { address := "c4", status := GovernorStatus.Active, votingPower := 1 }

/-- The boundary scenario: a cap of 1 with three active, eligible governors
ranked by power. -/
def stW4 : StoreState :=
  { governors := [("a4", gA4), ("b4", gB4), ("c4", gD4)]
  , powerIndex := [(3, "a4"), (2, "b4"), (1, "c4")]
  , governanceDelegations :=
      [("a4", { delegatorAddress := "a4", governorAddress := "a4" })
      , ("b4", { delegatorAddress := "b4", governorAddress := "b4" })
      , ("c4", { delegatorAddress := "c4", governorAddress := "c4" })]
  , stakingDelegations := []
  , validators := []
  , params := { maxGovernors := 1, minGovernorSelfDelegation := "0" } }

/-- C4 witness: with a cap of 1 and three eligible governors the scan admits
exactly two of them. -/
theorem C4_witness :
    (IterateMaxGovernorsByGovernancePower stW4 (fun _ _ => false)).1.length =
      stW4.params.maxGovernors + 1 :=
  (C4_cap_check_admits_cap_plus_one stW4 (by decide) (by decide) (by decide) (by decide)).1

/-! ## C7 -/

/-- C7: under the one-entry-per-governor pre-state invariant,
UpdateGovernorByPowerIndex leaves the power index with exactly the one entry
keyed by the new voting power for the updated governor address, and persists
the updated record. -/
theorem C7_update_power_index_unique (st : StoreState) (g old : Governor)
    (hold : GetGovernor st g.address = some old)
    (haddr : old.address = g.address)
    (hidx : st.powerIndex.filter (fun key => key.2 == g.address) =
      [(old.votingPower, g.address)]) :
    (UpdateGovernorByPowerIndex st g).powerIndex.filter (fun key => key.2 == g.address) =
      [(g.votingPower, g.address)]
    ∧ GetGovernor (UpdateGovernorByPowerIndex st g) g.address = some g := by
  have hmem : ∀ k ∈ st.powerIndex, k.2 = g.address → k = (old.votingPower, g.address) := by
    intro k hk hk2
    have hkf : k ∈ st.powerIndex.filter (fun key => key.2 == g.address) := by
      rw [List.mem_filter]
      exact ⟨hk, by simp [hk2]⟩
    rw [hidx] at hkf
    simpa using hkf
  have hdel : ∀ k ∈ st.powerIndex.filter
      (fun key => key != (old.votingPower, old.address)), ¬ k.2 = g.address := by
    intro k hk hk2
    rw [List.mem_filter] at hk
    obtain ⟨hk1, hk3⟩ := hk
    have hke := hmem k hk1 hk2
    rw [haddr, hke] at hk3
    simp at hk3
  have hdelnil : (st.powerIndex.filter (fun key => key != (old.votingPower, old.address))).filter
      (fun key => key.2 == g.address) = [] := by
    rw [List.filter_eq_nil_iff]
    intro k hk
    simp only [beq_iff_eq]
    exact hdel k hk
  have hnotmem : (g.votingPower, g.address) ∉
      st.powerIndex.filter (fun key => key != (old.votingPower, old.address)) := by
    intro hmem2
    have hin : (g.votingPower, g.address) ∈ (st.powerIndex.filter
        (fun key => key != (old.votingPower, old.address))).filter
        (fun key => key.2 == g.address) := by
      rw [List.mem_filter]
      exact ⟨hmem2, by simp⟩
    rw [hdelnil] at hin
    simp at hin
  have hpost : (UpdateGovernorByPowerIndex st g).powerIndex =
      (g.votingPower, g.address) ::
        st.powerIndex.filter (fun key => key != (old.votingPower, old.address)) := by
    simp only [UpdateGovernorByPowerIndex, hold, Option.getD_some, SetGovernor,
      SetGovernorByPowerIndex, DeleteGovernorByPowerIndex]
    rw [if_neg hnotmem]
  constructor
  · rw [hpost, List.filter_cons]
    simp [hdelnil]
  · simp only [UpdateGovernorByPowerIndex, hold, Option.getD_some]
    simp [GetGovernor, SetGovernor, assocGet, List.find?]

/-- The stored record before the update. -/
def gOld7 : Governor := { address := "a7", status := GovernorStatus.Active, votingPower := 5 }

/-- The updated record with a changed voting power. -/
def gNew7 : Governor := { address := "a7", status := GovernorStatus.Active, votingPower := 7 }

/-- A state holding the old record and its single index entry. -/
def stW7 : StoreState :=
  { governors := [("a7", gOld7)]
  , powerIndex := [(5, "a7")]
  , governanceDelegations := []
  , stakingDelegations := []
  , validators := []
  , params := { maxGovernors := 1, minGovernorSelfDelegation := "0" } }

/-- C7 witness: updating the concrete state replaces the index entry keyed by
power 5 with the one keyed by power 7 and persists the new record. -/
theorem C7_witness :
    (UpdateGovernorByPowerIndex stW7 gNew7).powerIndex.filter
      (fun key => key.2 == gNew7.address) = [(gNew7.votingPower, gNew7.address)]
    ∧ GetGovernor (UpdateGovernorByPowerIndex stW7 gNew7) gNew7.address = some gNew7 :=
  C7_update_power_index_unique stW7 gNew7 gOld7 (by decide) (by decide) (by decide)

/-- C9 witness: the amended behavior at concrete inputs: silent false on the
inactive governor, abort on the active one. -/
theorem C9_witness :
    ValidateGovernorMinSelfDelegation stC9 gC9 = some false ∧
      ValidateGovernorMinSelfDelegation stC9b gC9b = none :=
  ⟨(C9_unparsable_min_behavior stC9 gC9 (by decide)).1 (by decide) (by decide),
    (C9_unparsable_min_behavior stC9b gC9b (by decide)).2
      { delegatorAddress := "b2", governorAddress := "b2" } (by decide) (by decide) (by decide)⟩
